import Mathlib

/-!
Shallow embedding of `src/fastapi_crud.py`, a minimal in-memory CRUD service
for a single resource type `Item`, backed by the insertion-ordered Python
dict `items_db`.

Modelling decisions, all derived from the source:

* The store `items_db` is an insertion-ordered mapping from string ids to
  items.  We embed it as an association list `Store := List (String × Item)`
  with Python-dict semantics: assignment to an existing key replaces the
  value in place (keeping the key's position), assignment to a new key
  appends at the end, `del` removes the entry, and `.values()` is the list
  of values in insertion order.

* Pydantic validates field types only when a request body is parsed, not on
  attribute assignment (`validate_assignment` is off by default), and
  `update_item` writes fields with a bare `setattr`.  Consequently a stored
  `Item`'s `name`, `price` and `in_stock` attributes — declared `str`,
  `float` and `bool` on the model — can in fact hold `None` at runtime when
  an update request explicitly carries a JSON `null`.  The embedded `Item`
  therefore makes every non-id field an `Option`; items built by
  `create_item` always populate `name`, `price` and `in_stock` with `some`.

* `ItemUpdate` declares each field `Optional[... ] = None` and the handler
  applies `item_update.dict(exclude_unset=True)`, so a field can be absent
  from the request (not in the dict), or present with a value, or present
  with an explicit `null`.  Each embedded field is therefore a doubled
  option: `none` = absent, `some v` = present with payload `v`.

* Python `float` is used only to store, copy and return prices — no
  arithmetic is ever performed — so prices are embedded as `Rat`.

* `uuid.uuid4()` is a random generator outside the program text; the
  generated id is passed to `create_item` as an explicit argument.

* A handler raising `HTTPException(404)` is embedded as returning `none`
  in the first component while passing the store through unchanged; an
  uncaught `AttributeError` (`None.lower()` in `search_items`) is embedded
  as `search_items` returning `none`.
-/

/-- An item as stored in `items_db`.  The Python class declares
`name: str`, `description: Optional[str]`, `price: float`,
`in_stock: bool = True`, but unvalidated `setattr` during updates can leave
`None` in any non-id attribute, hence every field except `id` is optional
here (see the header comment). -/
structure Item where
  id : String
  name : Option String
  description : Option String
  price : Option Rat
  in_stock : Option Bool
deriving Repr, DecidableEq

/-- Request body of `POST /items/` (class `ItemCreate(ItemBase)`): `name`
and `price` are required, `description` defaults to `None`, `in_stock`
defaults to `True`. -/
structure ItemCreate where
  name : String
  description : Option String := none
  price : Rat
  in_stock : Bool := true
deriving Repr, DecidableEq

/-- Request body of `PUT /items/{item_id}` (class `ItemUpdate`).  The outer
option records whether the field was present in the request at all
(`exclude_unset=True` drops absent fields); the inner option is the
field's payload, where `none` is an explicit JSON `null` (each Python field
is `Optional[...]`). -/
structure ItemUpdate where
  name : Option (Option String) := none
  description : Option (Option String) := none
  price : Option (Option Rat) := none
  in_stock : Option (Option Bool) := none
deriving Repr, DecidableEq

/-- The in-memory database `items_db`, an insertion-ordered dict. -/
abbrev Store := List (String × Item)

/-- Python `items_db[k]` as a total lookup: value of the first (in a real
dict, only) entry with key `k`. -/
def dictGet (db : Store) (k : String) : Option Item :=
  match db with
  | [] => none
  | (k₂, v) :: rest => if k₂ = k then some v else dictGet rest k

/-- Python `k in items_db`. -/
def dictContains (db : Store) (k : String) : Bool :=
  (dictGet db k).isSome

/-- Python `items_db[k] = v`: replace in place if the key exists (position
preserved), otherwise append at the end. -/
def dictInsert (db : Store) (k : String) (v : Item) : Store :=
  match db with
  | [] => [(k, v)]
  | (k₂, v₂) :: rest =>
      if k₂ = k then (k, v) :: rest else (k₂, v₂) :: dictInsert rest k v

/-- Python `del items_db[k]`: remove the entry with key `k`. -/
def dictDelete (db : Store) (k : String) : Store :=
  match db with
  | [] => []
  | (k₂, v₂) :: rest =>
      if k₂ = k then rest else (k₂, v₂) :: dictDelete rest k

/-- Python `list(items_db.values())`: the values in insertion order. -/
def storeValues (db : Store) : List Item :=
  db.map (fun p => p.2)

/-- Real Python dicts never hold a key twice; stores reachable through the
API satisfy this. -/
def keysNodup (db : Store) : Prop :=
  (db.map (fun p => p.1)).Nodup

instance (db : Store) : Decidable (keysNodup db) :=
  inferInstanceAs (Decidable (List.Nodup _))

/-- Python slice `xs[start:stop]` (step 1): negative indices count from the
end, then both bounds are clamped to `[0, len]` and the elements with
(normalised) indices in `[start, stop)` are returned. -/
def pySlice {α : Type} (xs : List α) (start stop : Int) : List α :=
  let n : Int := xs.length
  let s : Int := if start < 0 then max (n + start) 0 else min start n
  let e : Int := if stop < 0 then max (n + stop) 0 else min stop n
  (xs.take e.toNat).drop s.toNat

/-- Does `hay` start with `needle`?  Helper for substring occurrence. -/
def listStartsWith : List Char → List Char → Bool
  | [], _ => true
  | _ :: _, [] => false
  | a :: as, b :: bs => a == b && listStartsWith as bs

/-- Substring occurrence on char lists: `containsSub needle hay` is Python
`needle in hay` for the corresponding strings. -/
def containsSub : List Char → List Char → Bool
  | needle, [] => needle.isEmpty
  | needle, c :: rest =>
      listStartsWith needle (c :: rest) || containsSub needle rest

/-- Python string membership `needle in hay`. -/
def strIn (needle hay : String) : Bool :=
  containsSub needle.toList hay.toList

/-- Python `s.lower()`. -/
def pyLower (s : String) : String :=
  String.mk (s.toList.map Char.toLower)

/-- Pydantic `ItemUpdate.dict(exclude_unset=True)` followed by the `setattr` loop of
`update_item`: each field present in the request overwrites the stored
attribute (possibly with `None`); absent fields are untouched; `id` is not
an `ItemUpdate` field and is never written. -/
def applyUpdate (stored : Item) (u : ItemUpdate) : Item :=
  { stored with
    name := match u.name with
      | some v => v
      | none => stored.name
    description := match u.description with
      | some v => v
      | none => stored.description
    price := match u.price with
      | some v => v
      | none => stored.price
    in_stock := match u.in_stock with
      | some v => v
      | none => stored.in_stock }

/-- Handler `POST /items/` — `create_item`.  `item_id` stands for the fresh
`str(uuid.uuid4())`; the handler builds `Item(id=item_id, **item.dict())`,
stores it, and returns it. -/
def create_item (item_id : String) (item : ItemCreate) (db : Store) :
    Item × Store :=
  let new_item : Item :=
    { id := item_id
      name := some item.name
      description := item.description
      price := some item.price
      in_stock := some item.in_stock }
  (new_item, dictInsert db item_id new_item)

/-- Handler `GET /items/` — `read_items`: `list(items_db.values())[skip : skip + limit]`. -/
def read_items (skip limit : Int) (db : Store) : List Item :=
  pySlice (storeValues db) skip (skip + limit)

/-- Handler `GET /items/{item_id}` — `read_item`: 404 (`none`) if the id is absent,
otherwise the stored item; the store is never modified. -/
def read_item (item_id : String) (db : Store) : Option Item × Store :=
  match dictGet db item_id with
  | none => (none, db)
  | some it => (some it, db)

/-- Handler `PUT /items/{item_id}` — `update_item`: 404 (`none`) if the id is
absent, otherwise overwrite exactly the request's fields on the stored
item and write it back under the same key. -/
def update_item (item_id : String) (item_update : ItemUpdate) (db : Store) :
    Option Item × Store :=
  match dictGet db item_id with
  | none => (none, db)
  | some stored_item =>
      let updated := applyUpdate stored_item item_update
      (some updated, dictInsert db item_id updated)

/-- Handler `DELETE /items/{item_id}` — `delete_item`: 404 (`none`) if the id is
absent, otherwise remove the entry and acknowledge. -/
def delete_item (item_id : String) (db : Store) : Option String × Store :=
  match dictGet db item_id with
  | none => (none, db)
  | some _ => (some "Item deleted successfully", dictDelete db item_id)

/-- One iteration of the `search_items` loop on a single item:
`q.lower() in item.name.lower() or (item.description and q.lower() in
item.description.lower())`.  Returns `none` when `item.name` is `None`
(the call `.lower()` raises `AttributeError`); an empty-string description
is falsy in Python, so it short-circuits to no-match. -/
def itemMatches (q : String) (item : Item) : Option Bool :=
  match item.name with
  | none => none
  | some nm =>
      if strIn (pyLower q) (pyLower nm) then some true
      else
        match item.description with
        | none => some false
        | some d => if d = "" then some false else some (strIn (pyLower q) (pyLower d))

/-- The `for item in items_db.values()` loop of `search_items`, collecting
matches in iteration order and propagating the `AttributeError` case. -/
def searchLoop (q : String) : List Item → Option (List Item)
  | [] => some []
  | it :: rest =>
      match itemMatches q it with
      | none => none
      | some true => (searchLoop q rest).map (fun l => it :: l)
      | some false => searchLoop q rest

/-- Handler `GET /items/search/` — `search_items`. -/
def search_items (q : String) (db : Store) : Option (List Item) :=
  searchLoop q (storeValues db)

/-- Handler `GET /health` — `health_check`. -/
def health_check (db : Store) : String × Nat :=
  ("healthy", db.length)

/-! ## Store lemmas -/

theorem dictGet_insert_self (db : Store) (k : String) (v : Item) :
    dictGet (dictInsert db k v) k = some v := by
  induction db with
  | nil => simp [dictInsert, dictGet]
  | cons p rest ih =>
      obtain ⟨k₂, v₂⟩ := p
      by_cases hk : k₂ = k
      · simp [dictInsert, dictGet, hk]
      · simp [dictInsert, dictGet, hk, ih]

theorem dictGet_insert_ne (db : Store) (k k₁ : String) (v : Item)
    (h : k₁ ≠ k) : dictGet (dictInsert db k v) k₁ = dictGet db k₁ := by
  have hne : k ≠ k₁ := fun hh => h hh.symm
  induction db with
  | nil => simp [dictInsert, dictGet, hne]
  | cons p rest ih =>
      obtain ⟨k₂, v₂⟩ := p
      by_cases hk : k₂ = k
      · subst hk
        simp [dictInsert, dictGet, hne]
      · simp [dictInsert, dictGet, hk, ih]

theorem dictGet_eq_none_of_not_mem (db : Store) (k : String)
    (h : k ∉ db.map (fun p => p.1)) : dictGet db k = none := by
  induction db with
  | nil => rfl
  | cons p rest ih =>
      simp only [List.map_cons, List.mem_cons, not_or] at h
      have hne : p.1 ≠ k := fun hh => h.1 hh.symm
      obtain ⟨k₂, v₂⟩ := p
      simp only [dictGet, if_neg hne]
      exact ih h.2

theorem dictGet_delete_self (db : Store) (k : String) (h : keysNodup db) :
    dictGet (dictDelete db k) k = none := by
  induction db with
  | nil => rfl
  | cons p rest ih =>
      obtain ⟨k₂, v₂⟩ := p
      have hcons := List.nodup_cons.mp h
      by_cases hk : k₂ = k
      · subst hk
        simp only [dictDelete, if_pos rfl]
        exact dictGet_eq_none_of_not_mem rest k₂ hcons.1
      · simp only [dictDelete, if_neg hk, dictGet, if_neg hk]
        exact ih hcons.2

theorem dictInsert_fresh_append (db : Store) (k : String) (v : Item)
    (h : dictGet db k = none) : dictInsert db k v = db ++ [(k, v)] := by
  induction db with
  | nil => rfl
  | cons p rest ih =>
      obtain ⟨k₂, v₂⟩ := p
      by_cases hk : k₂ = k
      · simp [dictGet, hk] at h
      · simp only [dictGet, if_neg hk] at h
        simp [dictInsert, hk, ih h]

/-! ## Concrete items and stores used by witnesses and counterexamples -/

def itemBolt : Item :=
  { id := "i1", name := some "Bolt", description := none,
    price := some 1, in_stock := some true }

def dbBolt : Store := [("i1", itemBolt)]

def itemWidget : Item :=
  { id := "w1", name := some "widget-1", description := some "A widget",
    price := some 5, in_stock := some true }

def itemGadget : Item :=
  { id := "g1", name := some "gadget", description := none,
    price := some 2, in_stock := some false }

def dbTwo : Store := [("w1", itemWidget), ("g1", itemGadget)]

/-- An update request that touches only `price` (present with value 2). -/
def updPriceOnly : ItemUpdate := { price := some (some 2) }

/-- An update request carrying an explicit JSON `null` for `name`. -/
def updNullName : ItemUpdate := { name := some none }

/-! ## Claims -/

/-- Claim C1: for every id present in the store and every update request,
update overwrites only the fields explicitly present in the request; every
absent field keeps its prior value, `id` is never mutated (it is not an
`ItemUpdate` field, so no request body can touch it), the returned item
equals the item stored under the id afterwards, and no other entry of the
store changes. -/
theorem claim_C1_update_is_partial_merge (db : Store) (item_id : String)
    (u : ItemUpdate) (it : Item) (h : dictGet db item_id = some it) :
    (update_item item_id u db).1 = some (applyUpdate it u)
    ∧ dictGet (update_item item_id u db).2 item_id = some (applyUpdate it u)
    ∧ (applyUpdate it u).id = it.id
    ∧ (u.name = none → (applyUpdate it u).name = it.name)
    ∧ (u.description = none → (applyUpdate it u).description = it.description)
    ∧ (u.price = none → (applyUpdate it u).price = it.price)
    ∧ (u.in_stock = none → (applyUpdate it u).in_stock = it.in_stock)
    ∧ (∀ k, k ≠ item_id → dictGet (update_item item_id u db).2 k = dictGet db k) := by
  have hstep : update_item item_id u db =
      (some (applyUpdate it u), dictInsert db item_id (applyUpdate it u)) := by
    unfold update_item
    rw [h]
  refine ⟨?_, ?_, rfl, ?_, ?_, ?_, ?_, ?_⟩
  · rw [hstep]
  · rw [hstep]
    exact dictGet_insert_self db item_id (applyUpdate it u)
  · intro hu; simp [applyUpdate, hu]
  · intro hu; simp [applyUpdate, hu]
  · intro hu; simp [applyUpdate, hu]
  · intro hu; simp [applyUpdate, hu]
  · intro k hk
    rw [hstep]
    exact dictGet_insert_ne db item_id k (applyUpdate it u) hk

/-- Witness for C1: updating only `price` on the stored widget keeps
`name`, `description` and `in_stock`, keeps the id, and stores exactly the
returned item. -/
theorem claim_C1_witness :
    (update_item "w1" updPriceOnly dbTwo).1 = some (applyUpdate itemWidget updPriceOnly)
    ∧ (applyUpdate itemWidget updPriceOnly).name = itemWidget.name
    ∧ (applyUpdate itemWidget updPriceOnly).description = itemWidget.description
    ∧ (applyUpdate itemWidget updPriceOnly).in_stock = itemWidget.in_stock
    ∧ (applyUpdate itemWidget updPriceOnly).id = itemWidget.id := by
  have h := claim_C1_update_is_partial_merge dbTwo "w1" updPriceOnly itemWidget rfl
  exact ⟨h.1, h.2.2.2.1 rfl, h.2.2.2.2.1 rfl, h.2.2.2.2.2.2.1 rfl, h.2.2.1⟩

/-- Claim C2: creating an item and immediately fetching it by the id it was
stored under succeeds and returns a value equal in all fields to the one
`create_item` returned. -/
theorem claim_C2_create_read_roundtrip (db : Store) (item_id : String)
    (c : ItemCreate) :
    (read_item item_id (create_item item_id c db).2).1 =
      some (create_item item_id c db).1 := by
  unfold read_item create_item
  simp [dictGet_insert_self]

/-- Claim C3 is a code bug: the spec invariant "`name` and `price` are
always present on a stored Item" is the evident intent (the `Item` pydantic
model declares `name: str` and `price: float`), but `update_item` writes
request fields with an unvalidated `setattr`, so a `PUT` body carrying an
explicit `"name": null` leaves the stored item with a `None` name.  This
theorem evaluates the code at that failing input. -/
theorem claim_C3_update_can_null_required_fields :
    dictGet (update_item "i1" updNullName dbBolt).2 "i1" =
      some { id := "i1", name := none, description := none,
             price := some 1, in_stock := some true } := by
  rfl

/-- Claim C4: `read_item`, `update_item` and `delete_item` fail with the
404 `NotFoundError` (modelled as `none`) exactly when the id is absent
from the store, and succeed otherwise; on a store with duplicate-free keys
(every real Python dict), a second delete of the same id after a
successful delete always fails. -/
theorem claim_C4_notfound_iff_absent (db : Store) (item_id : String)
    (u : ItemUpdate) (hnd : keysNodup db) :
    ((read_item item_id db).1 = none ↔ dictContains db item_id = false)
    ∧ ((update_item item_id u db).1 = none ↔ dictContains db item_id = false)
    ∧ ((delete_item item_id db).1 = none ↔ dictContains db item_id = false)
    ∧ ((delete_item item_id db).1.isSome →
        (delete_item item_id (delete_item item_id db).2).1 = none) := by
  cases hg : dictGet db item_id with
  | none => simp [read_item, update_item, delete_item, dictContains, hg]
  | some it =>
      refine ⟨?_, ?_, ?_, ?_⟩
      · simp [read_item, dictContains, hg]
      · simp [update_item, dictContains, hg]
      · simp [delete_item, dictContains, hg]
      · intro _
        have hdel : (delete_item item_id db).2 = dictDelete db item_id := by
          simp [delete_item, hg]
        rw [hdel]
        simp [delete_item, dictGet_delete_self db item_id hnd]

/-- Witness for C4: on the two-item store, deleting `"w1"` succeeds and a
second delete of `"w1"` fails; lookups of the absent id `"zzz"` fail. -/
theorem claim_C4_witness :
    (delete_item "w1" (delete_item "w1" dbTwo).2).1 = none
    ∧ ((read_item "zzz" dbTwo).1 = none ↔ dictContains dbTwo "zzz" = false) := by
  have h := claim_C4_notfound_iff_absent dbTwo "w1" {} (by decide)
  have h₂ := claim_C4_notfound_iff_absent dbTwo "zzz" {} (by decide)
  exact ⟨h.2.2.2 rfl, h₂.1⟩

/-- Claim C5: a failed operation leaves the store exactly unchanged.
`read_item` never modifies the store at all, and `update_item` and
`delete_item` return the input store untouched whenever they report the
404 error — the membership test precedes every write in the source. -/
theorem claim_C5_failed_ops_preserve_store (db : Store) (item_id : String)
    (u : ItemUpdate) :
    (read_item item_id db).2 = db
    ∧ ((update_item item_id u db).1 = none → (update_item item_id u db).2 = db)
    ∧ ((delete_item item_id db).1 = none → (delete_item item_id db).2 = db) := by
  cases hg : dictGet db item_id with
  | none => simp [read_item, update_item, delete_item, hg]
  | some it => simp [read_item, update_item, delete_item, hg]

/-- Witness for C5: updating and deleting the absent id `"abc"` on the
two-item store fail and leave the store unchanged. -/
theorem claim_C5_witness :
    (read_item "abc" dbTwo).2 = dbTwo
    ∧ (update_item "abc" updPriceOnly dbTwo).2 = dbTwo
    ∧ (delete_item "abc" dbTwo).2 = dbTwo := by
  have h := claim_C5_failed_ops_preserve_store dbTwo "abc" updPriceOnly
  exact ⟨h.1, h.2.1 rfl, h.2.2 rfl⟩

/-! ## Slicing lemmas -/

theorem pySlice_nonneg {α : Type} (xs : List α) (a b : Int)
    (ha : 0 ≤ a) (hb : 0 ≤ b) :
    pySlice xs a (a + b) = (xs.drop a.toNat).take b.toNat := by
  unfold pySlice
  have hna : ¬ a < 0 := not_lt.mpr ha
  have hnab : ¬ a + b < 0 := by omega
  simp only [if_neg hna, if_neg hnab]
  have h1 : (min a (xs.length : Int)).toNat = min a.toNat xs.length := by omega
  have h2 : (min (a + b) (xs.length : Int)).toNat = min (a.toNat + b.toNat) xs.length := by
    omega
  rw [h1, h2, List.drop_take]
  rcases le_or_lt a.toNat xs.length with hle | hlt
  · rw [min_eq_left hle]
    rw [List.take_eq_take]
    rw [List.length_drop]
    omega
  · rw [min_eq_right (le_of_lt hlt), min_eq_right (by omega : xs.length ≤ a.toNat + b.toNat)]
    rw [List.drop_eq_nil_of_le (le_of_lt hlt)]
    simp

/-- Claim C6: for non-negative `skip` and `limit`, `read_items` returns
the stored values in insertion order starting at offset `skip`, contains
at most `limit` entries, and is empty whenever `skip` is at least the
store size. -/
theorem claim_C6_list_offset_limit (db : Store) (skip limit : Int)
    (hs : 0 ≤ skip) (hl : 0 ≤ limit) :
    read_items skip limit db = ((storeValues db).drop skip.toNat).take limit.toNat
    ∧ (read_items skip limit db).length ≤ limit.toNat
    ∧ ((storeValues db).length ≤ skip.toNat → read_items skip limit db = []) := by
  have h : read_items skip limit db =
      ((storeValues db).drop skip.toNat).take limit.toNat :=
    pySlice_nonneg (storeValues db) skip limit hs hl
  refine ⟨h, ?_, ?_⟩
  · rw [h, List.length_take]
    exact min_le_left _ _
  · intro hskip
    rw [h, List.drop_eq_nil_of_le hskip]
    simp

/-- Witness for C6 (the spec scenario): on the two-item store,
`list(skip=1, limit=10)` is exactly the second-created item. -/
theorem claim_C6_witness :
    read_items 1 10 dbTwo = [itemGadget] := by
  have h := claim_C6_list_offset_limit dbTwo 1 10 (by decide) (by decide)
  exact h.1.trans rfl

/-- Claim C8: with the generated uuid modelled as an argument assumed
distinct from every id already in the store (uuid4 is a random,
collision-resistant generator outside the program text), `create_item`
builds the item from the supplied fields, appends it at the end of the
store under the new id, and returns exactly the stored item.  The
structure defaults of `ItemCreate` embed the pydantic defaults
`description = None`, `in_stock = True`; the witness shows the concrete
`{name: "Bolt", price: 1.5}` scenario. -/
theorem claim_C8_create_fresh_insert (db : Store) (item_id : String)
    (c : ItemCreate) (hfresh : dictGet db item_id = none) :
    (create_item item_id c db).1 =
      { id := item_id, name := some c.name, description := c.description,
        price := some c.price, in_stock := some c.in_stock }
    ∧ (create_item item_id c db).2 = db ++ [(item_id, (create_item item_id c db).1)]
    ∧ dictGet (create_item item_id c db).2 item_id = some (create_item item_id c db).1 := by
  refine ⟨rfl, ?_, ?_⟩
  · exact dictInsert_fresh_append db item_id _ hfresh
  · exact dictGet_insert_self db item_id _

/-- Witness for C8: creating `{name: "Bolt", price: 3/2}` on the empty
store returns the item with the generated id, `description` null,
`in_stock` true, and stores it. -/
theorem claim_C8_witness :
    (create_item "id-1" { name := "Bolt", price := 3/2 } ([] : Store)).1 =
      { id := "id-1", name := some "Bolt", description := none,
        price := some (3/2 : Rat), in_stock := some true }
    ∧ (create_item "id-1" { name := "Bolt", price := 3/2 } ([] : Store)).2 =
      [("id-1", (create_item "id-1" { name := "Bolt", price := 3/2 } ([] : Store)).1)] := by
  have h := claim_C8_create_fresh_insert ([] : Store) "id-1"
    { name := "Bolt", price := 3/2 } rfl
  exact ⟨h.1, h.2.1⟩

/-! ## Search lemmas -/

theorem containsSub_nil_left (l : List Char) : containsSub [] l = true := by
  cases l with
  | nil => rfl
  | cons c rest => simp [containsSub, listStartsWith]

/-- The matching predicate exactly as the specification words it: the
lowercased query occurs in the lowercased name, or the description is
present and the lowercased query occurs in the lowercased description.
This is deliberately written from the spec, to be compared with the
source-derived `itemMatches`. -/
def specMatches (q : String) (it : Item) : Bool :=
  match it.name, it.description with
  | some nm, some d => strIn (pyLower q) (pyLower nm) || strIn (pyLower q) (pyLower d)
  | some nm, none => strIn (pyLower q) (pyLower nm)
  | none, _ => false

/-- On an item whose `name` attribute is a string (as the `Item` model
declares), the source's match condition — including the Python truthiness
test on `description`, which skips an empty-string description — agrees
with the specification's predicate: an empty description can only miss a
match for the empty query, and the empty query already matches the name. -/
theorem itemMatches_eq_spec (q : String) (it : Item) (h : it.name.isSome) :
    itemMatches q it = some (specMatches q it) := by
  obtain ⟨nm, hnm⟩ := Option.isSome_iff_exists.mp h
  by_cases hm : strIn (pyLower q) (pyLower nm)
  · cases hd : it.description with
    | none => simp [itemMatches, specMatches, hnm, hd, hm]
    | some d => simp [itemMatches, specMatches, hnm, hd, hm]
  · have hq : (pyLower q).toList ≠ [] := by
      intro hq
      rw [strIn, hq, containsSub_nil_left] at hm
      exact hm rfl
    cases hd : it.description with
    | none => simp [itemMatches, specMatches, hnm, hd, hm]
    | some d =>
        by_cases hde : d = ""
        · have hmt : strIn (pyLower q) (pyLower "") = false := by
            rw [strIn]
            show containsSub (pyLower q).toList [] = false
            rw [containsSub]
            cases hcl : (pyLower q).toList with
            | nil => exact absurd hcl hq
            | cons c rest => rfl
          subst hde
          simp [itemMatches, specMatches, hnm, hd, hm, hmt]
        · simp [itemMatches, specMatches, hnm, hd, hm, hde]

/-- The `search_items` loop, on a list of items whose names are all
present, collects exactly the spec-predicate matches, in order. -/
theorem searchLoop_eq_filter (q : String) (l : List Item)
    (h : ∀ it ∈ l, it.name.isSome) :
    searchLoop q l = some (l.filter (specMatches q)) := by
  induction l with
  | nil => rfl
  | cons it rest ih =>
      have h₁ : it.name.isSome := h it (List.mem_cons_self it rest)
      have h₂ : ∀ x ∈ rest, x.name.isSome := fun x hx => h x (List.mem_cons_of_mem it hx)
      cases hspec : specMatches q it with
      | true =>
          simp [searchLoop, itemMatches_eq_spec q it h₁, hspec, ih h₂,
            List.filter_cons_of_pos]
      | false =>
          simp [searchLoop, itemMatches_eq_spec q it h₁, hspec, ih h₂,
            List.filter_cons_of_neg]

/-- Claim C7: on every store whose items carry string names (as the `Item`
model declares; only the C3 bug can break this), `search_items` returns in
store iteration order exactly the items whose lowercased name contains the
lowercased query, or whose description is present and contains it
lowercased — i.e. matching is case-insensitive substring matching. -/
theorem claim_C7_search_case_insensitive_substring (db : Store) (q : String)
    (h : ∀ p ∈ db, (p.2).name.isSome) :
    search_items q db = some ((storeValues db).filter (specMatches q)) := by
  unfold search_items
  apply searchLoop_eq_filter
  intro it hit
  obtain ⟨p, hp, hpe⟩ := List.mem_map.mp hit
  exact hpe ▸ h p hp

/-- Witness for C7: searching `"WIDGET"` on the two-item store matches
exactly the item named `"widget-1"`. -/
theorem claim_C7_witness :
    search_items "WIDGET" dbTwo = some [itemWidget] := by
  have h := claim_C7_search_case_insensitive_substring dbTwo "WIDGET" (by decide)
  rw [h]
  rfl

/-- Claim C9: the empty query matches every item — the empty string is a
substring of every string, including an empty name — so on every store
whose items carry string names, searching `""` returns all stored items
in iteration order. -/
theorem claim_C9_empty_query_matches_all (db : Store)
    (h : ∀ p ∈ db, (p.2).name.isSome) :
    search_items "" db = some (storeValues db) := by
  unfold search_items
  have hl : ∀ it ∈ storeValues db, it.name.isSome := by
    intro it hit
    obtain ⟨p, hp, hpe⟩ := List.mem_map.mp hit
    exact hpe ▸ h p hp
  rw [searchLoop_eq_filter "" (storeValues db) hl]
  congr 1
  rw [List.filter_eq_self]
  intro it hit
  obtain ⟨nm, hnm⟩ := Option.isSome_iff_exists.mp (hl it hit)
  have hq : strIn (pyLower "") (pyLower nm) = true := containsSub_nil_left _
  cases hd : it.description with
  | none => simp [specMatches, hnm, hd, hq]
  | some d => simp [specMatches, hnm, hd, hq]

/-- A store whose only item has the empty string for both name and
description. -/
def dbEmptyName : Store :=
  [("e1", { id := "e1", name := some "", description := some "",
            price := some 1, in_stock := some true })]

/-- Witness for C9: the empty query returns every item even when a stored
name and description are the empty string. -/
theorem claim_C9_witness :
    search_items "" dbEmptyName = some (storeValues dbEmptyName) :=
  claim_C9_empty_query_matches_all dbEmptyName (by decide)

/-- Counterexample to claim C10 as stated: the claim asserts that on every
non-empty store `list(skip=0, limit=-1)` is "a non-empty sequence despite
the negative limit", but on a one-item store `items[0:-1]` is empty. -/
theorem claim_C10_counterexample :
    dbBolt ≠ [] ∧ read_items 0 (-1) dbBolt = [] := by
  refine ⟨?_, rfl⟩
  simp [dbBolt]

/-- Claim C10 (amended): `read_items` applies raw Python slice semantics
`items[skip : skip + limit]` with end-relative indexing for negative
values and no clamping of negative arguments; consequently on a store
with at least two items `list(0, -1)` returns all items except the last
(a non-empty sequence), and on a store with between 1 and 99 items
`list(-1, 100)` returns exactly the last item.  (As stated the claim
fails: on a one-item store `list(0, -1)` is empty, and on a store with
100 or more items `items[-1:99]` is empty as well.) -/
theorem claim_C10_negative_slice_semantics (db : Store) (skip limit : Int) :
    read_items skip limit db = pySlice (storeValues db) skip (skip + limit)
    ∧ (2 ≤ (storeValues db).length →
        read_items 0 (-1) db = (storeValues db).dropLast
        ∧ read_items 0 (-1) db ≠ [])
    ∧ (1 ≤ (storeValues db).length → (storeValues db).length ≤ 99 →
        read_items (-1) 100 db = (storeValues db).drop ((storeValues db).length - 1)) := by
  refine ⟨rfl, ?_, ?_⟩
  · intro h2
    have hx : read_items 0 (-1) db =
        (storeValues db).take ((storeValues db).length - 1) := by
      show pySlice (storeValues db) 0 (0 + -1) = _
      simp only [pySlice]
      have e1 : ¬ (0 : Int) < 0 := by omega
      have e2 : (0 : Int) + -1 < 0 := by omega
      rw [if_neg e1, if_pos e2]
      have g1 : (min (0 : Int) ((storeValues db).length : Int)).toNat = 0 := by omega
      have g2 : (max (((storeValues db).length : Int) + (0 + -1)) 0).toNat =
          (storeValues db).length - 1 := by omega
      rw [g1, g2, List.drop_zero]
    constructor
    · rw [hx, List.dropLast_eq_take]
    · rw [hx]
      apply List.length_pos.mp
      rw [List.length_take]
      omega
  · intro h1 h99
    show pySlice (storeValues db) (-1) (-1 + 100) = _
    simp only [pySlice]
    have e1 : (-1 : Int) < 0 := by omega
    have e2 : ¬ (-1 + 100 : Int) < 0 := by omega
    rw [if_pos e1, if_neg e2]
    have g1 : (max (((storeValues db).length : Int) + -1) 0).toNat =
        (storeValues db).length - 1 := by omega
    have g2 : (min (-1 + 100 : Int) ((storeValues db).length : Int)).toNat =
        (storeValues db).length := by omega
    rw [g1, g2, List.take_length]

/-- Witness for C10 (amended): on the two-item store, `list(0, -1)`
returns exactly the first item and `list(-1, 100)` exactly the last. -/
theorem claim_C10_witness :
    read_items 0 (-1) dbTwo = [itemWidget]
    ∧ read_items (-1) 100 dbTwo = [itemGadget] := by
  have h := claim_C10_negative_slice_semantics dbTwo 0 (-1)
  have h₂ := claim_C10_negative_slice_semantics dbTwo (-1) 100
  exact ⟨((h.2.1 (by decide)).1).trans rfl, (h₂.2.2 (by decide) (by decide)).trans rfl⟩
